import Mathlib

/-!
Verification of `cloudflare_remove_dns` (src/main.go), a CLI tool that
deletes Cloudflare DNS records listed in a hostnames file.

The Go program is embedded shallowly: every remote interaction (zone-ID
lookup, record listing, record deletion) is represented by an explicit
outcome supplied as input, and the observable behaviour (remote calls
issued, log entries emitted, whether the process panicked) is returned as
data.  Go's `*bool` field `Proxied` becomes `Option Bool`; dereferencing a
nil pointer is modelled as a panic outcome that aborts the remaining
computation, emitting nothing from the statement that panicked.
-/

deriving instance DecidableEq for Except

namespace CloudflareRemoveDNS

/-- Severity level of a `zap` log entry (Info/Warn/Error/Fatal). -/
inductive LogLevel where
  | info
  | warn
  | error
  | fatal
deriving DecidableEq, Repr

/-- A structured field attached to a log entry (`zap.String`, `zap.Bool`,
`zap.Error`). -/
inductive Field where
  | str (key val : String)
  | bool (key : String) (val : Bool)
  | err (e : String)
deriving DecidableEq, Repr

/-- One emitted log entry: severity, message, structured fields. -/
structure LogEntry where
  level : LogLevel
  msg : String
  fields : List Field
deriving DecidableEq, Repr

/-- A Cloudflare DNS record as consumed by the tool
(`cloudflare.DNSRecord`): identifier, owning zone identifier, name, type,
content, and the `Proxied *bool` pointer (`none` models a nil pointer). -/
structure DNSRecord where
  ID : String
  ZoneID : String
  Name : String
  Typ : String
  Content : String
  Proxied : Option Bool
deriving DecidableEq, Repr

/-- Whitespace as recognised by Go's `unicode.IsSpace` over the ASCII
range (space, tab, newline, carriage return, vertical tab, form feed). -/
def isSpaceChar (c : Char) : Bool :=
  c = ' ' || c = '\t' || c = '\n' || c = '\x0d' || c = '\x0b' || c = '\x0c'

/-- Go `strings.TrimSpace`: drop leading and trailing whitespace. -/
def trimSpace (s : String) : String :=
  String.mk (((s.data.dropWhile isSpaceChar).reverse.dropWhile
    isSpaceChar).reverse)

/-- Go `strings.HasPrefix(line, "#")`: the first character is `#`. -/
def startsWithHash (s : String) : Bool :=
  match s.data with
  | [] => false
  | c :: _ => c = '#'

/-- Helper of `splitOnChar`: accumulate the current field (reversed) and
cut at each separator, as Go `strings.Split` does for a one-character
separator. -/
def splitAux (sep : Char) : List Char → List Char → List String
  | [], acc => [String.mk acc.reverse]
  | c :: cs, acc =>
    if c = sep then String.mk acc.reverse :: splitAux sep cs []
    else splitAux sep cs (c :: acc)

/-- Go `strings.Split(s, sep)` for a one-character separator: always at
least one field; an empty input yields `[""]`. -/
def splitOnChar (sep : Char) (s : String) : List String :=
  splitAux sep s.data []

/-- Go `strings.Join(parts, ".")`. -/
def joinWithDot : List String → String
  | [] => ""
  | [x] => x
  | x :: xs => x ++ "." ++ joinWithDot xs

/-- `readInputFile`, main.go:189-213: the scan loop.  Each line is
trimmed (`strings.TrimSpace`); blank lines and lines starting with `#`
are skipped; survivors are appended in order. -/
def scanLines : List String → List String
  | [] => []
  | l :: rest =>
    let line := trimSpace l
    if line == "" || startsWithHash line then scanLines rest
    else line :: scanLines rest

/-- `readInputFile`, main.go:189-213.  `openResult` is the outcome of
`os.Open`; `lines` are the lines the scanner yields before stopping;
`scanErr` is `scanner.Err()` after the loop (`none` = no read error).
An open failure is returned immediately; a scan error is returned after
the loop, discarding the collected hostnames. -/
def readInputFile (openResult : Except String Unit) (lines : List String)
    (scanErr : Option String) : Except String (List String) :=
  match openResult with
  | .error e => .error e
  | .ok _ =>
    match scanErr with
    | some e => .error e
    | none => .ok (scanLines lines)

/-- `getZoneNameFromRecord`, main.go:148-157: split the hostname on `.`;
fewer than two parts is an error; otherwise join the last two parts with
`.`. -/
def getZoneNameFromRecord (hostname : String) : Except String String :=
  let parts := splitOnChar '.' hostname
  if parts.length < 2 then
    .error ("invalid hostname: " ++ hostname)
  else
    .ok (joinWithDot (parts.drop (parts.length - 2)))

/-- Outcome of running one piece of the program: either it panicked (a nil
pointer dereference unwinds the whole process) or it returned a value. -/
inductive Outcome (α : Type) where
  | panicked
  | returned (a : α)
deriving DecidableEq, Repr

/-- Observable effects of a program fragment: the remote fetch calls
issued (`ListDNSRecords`, as zone-ID/hostname pairs), the remote delete
calls issued (`DeleteDNSRecord`, as zone-ID/record-ID pairs), the log
entries emitted, and whether a panic unwound the fragment. -/
structure Effects where
  fetchCalls : List (String × String) := []
  deleteCalls : List (String × String) := []
  logs : List LogEntry := []
  panicked : Bool := false
deriving DecidableEq, Repr

/-- The delete call `api.DeleteDNSRecord(ctx, ZoneIdentifier(record.ZoneID),
record.ID)` issued for a record (main.go:179). -/
def deleteCallOf (r : DNSRecord) : String × String := (r.ZoneID, r.ID)

/-- The dry-run log entry (main.go:176). -/
def dryRunLog (r : DNSRecord) (p : Bool) : LogEntry :=
  ⟨.info, "[DRY RUN] Deleting Record: ",
    [.str "recordID" r.ID, .str "zoneID" r.ZoneID, .str "name" r.Name,
     .str "type" r.Typ, .str "content" r.Content, .bool "proxied" p]⟩

/-- The delete-failure log entry (main.go:181). -/
def deleteFailLog (r : DNSRecord) (e : String) : LogEntry :=
  ⟨.error, "Failed to delete DNS record",
    [.str "recordID" r.ID, .str "name" r.Name, .err e]⟩

/-- The delete-success log entry (main.go:184). -/
def deletedLog (r : DNSRecord) (p : Bool) : LogEntry :=
  ⟨.warn, "Deleted Record: ",
    [.str "recordID" r.ID, .str "zoneID" r.ZoneID, .str "name" r.Name,
     .str "type" r.Typ, .str "content" r.Content, .bool "proxied" p]⟩

/-- `deleteDNSRecord`, main.go:174-186.  `apiDelete` is the outcome the
remote `DeleteDNSRecord` call would have if issued.  In dry-run mode the
call is never issued; the log entry dereferences `*record.Proxied`, so a
nil pointer panics before anything is logged.  In apply mode the call is
issued; on failure the error is logged and returned (no dereference); on
success the confirmation log dereferences `*record.Proxied`. -/
def deleteDNSRecord (apply : Bool) (apiDelete : Except String Unit)
    (r : DNSRecord) : Effects × Outcome (Except String Unit) :=
  if !apply then
    match r.Proxied with
    | none => ({ panicked := true }, .panicked)
    | some p => ({ logs := [dryRunLog r p] }, .returned (.ok ()))
  else
    match apiDelete with
    | .error e =>
      ({ deleteCalls := [deleteCallOf r], logs := [deleteFailLog r e] },
        .returned (.error e))
    | .ok _ =>
      match r.Proxied with
      | none =>
        ({ deleteCalls := [deleteCallOf r], panicked := true }, .panicked)
      | some p =>
        ({ deleteCalls := [deleteCallOf r], logs := [deletedLog r p] },
          .returned (.ok ()))

/-- The log entry the hostname loop emits when `deleteDNSRecord` returns an
error (main.go:112). -/
def loopDeleteErrLog (e : String) : LogEntry :=
  ⟨.error, "Error deleting record", [.err e]⟩

/-- The inner record loop of `run`, main.go:109-114: each fetched record is
paired with the outcome its remote delete call would have.  A panic aborts
the rest of the list; a returned error is logged and the loop continues. -/
def processRecords (apply : Bool) :
    List (DNSRecord × Except String Unit) → Effects
  | [] => {}
  | (r, o) :: rest =>
    let step := deleteDNSRecord apply o r
    match step.2 with
    | .panicked => step.1
    | .returned res =>
      let extra := match res with
        | .error e => [loopDeleteErrLog e]
        | .ok _ => []
      let tail := processRecords apply rest
      { fetchCalls := [],
        deleteCalls := step.1.deleteCalls ++ tail.deleteCalls,
        logs := step.1.logs ++ extra ++ tail.logs,
        panicked := tail.panicked }

/-- The prelude log of `fetchDNSRecords` (main.go:161). -/
def fetchingLog (hostname : String) : LogEntry :=
  ⟨.info, "Fetching Record: ", [.str "hostname" hostname]⟩

/-- The fetch-failure log of `fetchDNSRecords` (main.go:164). -/
def fetchFailLog (hostname e : String) : LogEntry :=
  ⟨.error, "Failed to fetch DNS record", [.str "hostname" hostname, .err e]⟩

/-- The zero-result log of `fetchDNSRecords` (main.go:168). -/
def noRecordsLog (hostname : String) : LogEntry :=
  ⟨.info, "No records found for", [.str "hostname" hostname]⟩

/-- `fetchDNSRecords`, main.go:160-171.  `apiList` is the outcome of the
remote `ListDNSRecords` call; each listed record carries the outcome its
delete call would have, so the caller can process it.  An error is logged
and propagated; zero records is logged informationally and returned as a
success. -/
def fetchDNSRecords (zoneID hostname : String)
    (apiList : Except String (List (DNSRecord × Except String Unit))) :
    Effects × Except String (List (DNSRecord × Except String Unit)) :=
  match apiList with
  | .error e =>
    ({ fetchCalls := [(zoneID, hostname)],
       logs := [fetchingLog hostname, fetchFailLog hostname e] }, .error e)
  | .ok recs =>
    ({ fetchCalls := [(zoneID, hostname)],
       logs := fetchingLog hostname ::
         (if recs.length == 0 then [noRecordsLog hostname] else []) },
      .ok recs)

/-- The zone-parse-failure log of `run` (main.go:96); it reports the
`zoneName` variable, which is `""` at that point. -/
def zoneParseFailLog (e : String) : LogEntry :=
  ⟨.error, "Failed to parse zone name from record", [.str "zoneName" "", .err e]⟩

/-- The zone-ID-lookup-failure log of `run` (main.go:101). -/
def zoneIDFailLog (zoneName e : String) : LogEntry :=
  ⟨.error, "Failed to fetch zone ID", [.str "zoneName" zoneName, .err e]⟩

/-- The remote responses for one hostname iteration: the outcome of
`api.ZoneIDByName` and the outcome of `api.ListDNSRecords` (each listed
record paired with the outcome of its delete call). -/
structure HostEnv where
  zoneIDResult : Except String String
  fetchResult : Except String (List (DNSRecord × Except String Unit))

/-- The `zoneName` value used by the loop body of `run` (main.go:94): on a
parse failure it is the returned `""`, and — the failure being only logged,
not a `continue` — the body goes on with it.  Likewise a zone-ID lookup
failure is only logged and the body continues with `zoneID = ""` (Go's
`ZoneIDByName` returns `"", err`); only a fetch error skips the record
loop (`continue`). -/
def zoneNameOrEmpty (hostname : String) : String :=
  match getZoneNameFromRecord hostname with
  | .ok zn => zn
  | .error _ => ""

/-- One iteration of the hostname loop of `run`, main.go:92-115 (see the
comment above `zoneNameOrEmpty` for the error-continuation behaviour). -/
def processHostname (apply : Bool) (hostname : String) (env : HostEnv) :
    Effects :=
  let zoneName := zoneNameOrEmpty hostname
  let zlogs : List LogEntry :=
    match getZoneNameFromRecord hostname with
    | .ok _ => []
    | .error e => [zoneParseFailLog e]
  let zoneID := match env.zoneIDResult with | .ok zid => zid | .error _ => ""
  let idlogs : List LogEntry :=
    match env.zoneIDResult with
    | .ok _ => []
    | .error e => [zoneIDFailLog zoneName e]
  let fe := fetchDNSRecords zoneID hostname env.fetchResult
  match fe.2 with
  | .error _ =>
    { fetchCalls := fe.1.fetchCalls, deleteCalls := [],
      logs := zlogs ++ idlogs ++ fe.1.logs, panicked := false }
  | .ok recs =>
    let de := processRecords apply recs
    { fetchCalls := fe.1.fetchCalls, deleteCalls := de.deleteCalls,
      logs := zlogs ++ idlogs ++ fe.1.logs ++ de.logs,
      panicked := de.panicked }

/-- The outer hostname loop of `run`, main.go:92-115: hostnames are
processed in order; a panic inside one iteration unwinds the whole
process, so nothing after it runs. -/
def runHostnames (apply : Bool) : List (String × HostEnv) → Effects
  | [] => {}
  | (h, env) :: rest =>
    let e := processHostname apply h env
    if e.panicked then e
    else
      let tail := runHostnames apply rest
      { fetchCalls := e.fetchCalls ++ tail.fetchCalls,
        deleteCalls := e.deleteCalls ++ tail.deleteCalls,
        logs := e.logs ++ tail.logs,
        panicked := tail.panicked }

/-- The fatal log of `run` when the input file cannot be read
(main.go:76). -/
def readFailLog (filename e : String) : LogEntry :=
  ⟨.fatal, "Failed to read file", [.str "filename" filename, .err e]⟩

/-- The info log of `run` when the file yields no hostnames
(main.go:86). -/
def noHostnamesLog (filename : String) : LogEntry :=
  ⟨.info, "No readable hostnames found in the input file",
    [.str "filename" filename]⟩

/-- Result of `run`: an optional fatal log entry (a fatal terminates the
process before any further work) together with the effects produced. -/
structure RunResult where
  fatal : Option LogEntry
  effects : Effects
deriving DecidableEq, Repr

/-- `run`, main.go:72-116: read the input file (fatal on error), build the
API client (fatal on error), return early if no hostnames, otherwise loop
over hostnames.  `envOf` supplies the remote responses per hostname. -/
def run (apply : Bool) (filename : String) (openResult : Except String Unit)
    (lines : List String) (scanErr : Option String) (apiInit : Except String Unit)
    (envOf : String → HostEnv) : RunResult :=
  match readInputFile openResult lines scanErr with
  | .error e => ⟨some (readFailLog filename e), {}⟩
  | .ok hostnames =>
    match apiInit with
    | .error e =>
      ⟨some ⟨.fatal, "Failed to create API instance", [.err e]⟩, {}⟩
    | .ok _ =>
      if hostnames.length == 0 then
        ⟨none, { logs := [noHostnamesLog filename] }⟩
      else
        ⟨none, runHostnames apply (hostnames.map (fun h => (h, envOf h)))⟩

/-- The default value `"hostnames.txt"` that `init` (main.go:38) stores
into `inputFile` when registering the `--filename` flag; `init` runs
before `main`, and command-line flags are parsed only later inside
`rootCmd.Execute` (main.go:67), so this is the value `inputFile` holds
when `main` tests it. -/
def inputFileAtMainEntry : String := "hostnames.txt"

/-- The guard of the file-existence / is-directory / readability checks in
`main` (main.go:52): they run only when `inputFile == ""`. -/
def fileChecksReached (inputFileValue : String) : Bool :=
  inputFileValue == ""

/-! ## Theorems -/

/-- C4: for every DNS record whose `Proxied` field is a nil pointer,
`deleteDNSRecord` panics instead of returning — in dry-run mode before
returning success (and before the log entry is emitted), and in apply mode
after the remote delete call succeeds but before the confirmation log; the
error branch alone performs no dereference and returns normally. -/
theorem deleteDNSRecord_nil_proxied_panics (id zid name typ content e : String)
    (d : Except String Unit) :
    (deleteDNSRecord false d ⟨id, zid, name, typ, content, none⟩ =
      ({ panicked := true }, .panicked)) ∧
    (deleteDNSRecord true (.ok ()) ⟨id, zid, name, typ, content, none⟩ =
      ({ deleteCalls := [(zid, id)], panicked := true }, .panicked)) ∧
    (deleteDNSRecord true (.error e) ⟨id, zid, name, typ, content, none⟩ =
      ({ deleteCalls := [(zid, id)],
         logs := [deleteFailLog ⟨id, zid, name, typ, content, none⟩ e] },
        .returned (.error e))) :=
  ⟨rfl, rfl, rfl⟩

/-- C1 counterexample: the claim "for every record, dry-run
`deleteDNSRecord` emits the dry-run log entry and returns success" fails at
a concrete record whose `Proxied` pointer is nil: the call panics (it does
not return success) and emits no log entry at all. -/
theorem dry_run_nil_proxied_not_success :
    (deleteDNSRecord false (.ok ())
        ⟨"rec1", "zone1", "a.example.com", "A", "203.0.113.5", none⟩).2 ≠
      .returned (.ok ()) ∧
    (deleteDNSRecord false (.ok ())
        ⟨"rec1", "zone1", "a.example.com", "A", "203.0.113.5", none⟩).1.logs
      = [] := by
  decide

/-- C1 (amended): in dry-run mode, for every record whose `Proxied`
pointer is non-nil, `deleteDNSRecord` issues no remote call of any kind,
emits exactly the dry-run log entry — carrying the record's identifier,
zone, name, type, content and proxied flag — and returns success,
whatever outcome the remote delete call would have had. -/
theorem dry_run_logs_only (d : Except String Unit)
    (id zid name typ content : String) (p : Bool) :
    deleteDNSRecord false d ⟨id, zid, name, typ, content, some p⟩ =
      ({ logs := [dryRunLog ⟨id, zid, name, typ, content, some p⟩ p] },
        .returned (.ok ())) :=
  rfl

/-- C10: the file-existence / is-directory / readability checks of `main`
are unreachable: their guard `inputFile == ""` is false because `init`
already stored the default `"hostnames.txt"` before `main` runs; an
unreadable input file is instead detected in `run`, which turns
`readInputFile`'s error into a fatal log with no further effects. -/
theorem main_file_checks_unreachable (apply : Bool) (filename e : String)
    (lines : List String) (scanErr : Option String)
    (apiInit : Except String Unit) (envOf : String → HostEnv) :
    fileChecksReached inputFileAtMainEntry = false ∧
    run apply filename (.error e) lines scanErr apiInit envOf =
      ⟨some (readFailLog filename e), {}⟩ :=
  ⟨by decide, rfl⟩

/-- The scan loop of `readInputFile` computes exactly the trim-then-filter
of the input lines: trimmed lines that are blank or start with `#` are
removed, all others kept in order. -/
theorem scanLines_eq_filter : ∀ lines : List String,
    scanLines lines =
      (lines.map trimSpace).filter (fun l => !(l == "" || startsWithHash l))
  | [] => rfl
  | l :: rest => by
    simp only [scanLines, List.map_cons, List.filter_cons]
    cases h : (trimSpace l == "" || startsWithHash (trimSpace l)) with
    | true => simp [h, scanLines_eq_filter rest]
    | false => simp [h, scanLines_eq_filter rest]

/-- C5: `readInputFile` fails exactly when the open fails or a scan error
occurs; otherwise it returns the lines in order, trimmed, with blank and
`#`-prefixed lines removed; on the spec's scenario it returns exactly
`["a.example.com", "b.example.com"]`. -/
theorem readInputFile_spec (lines : List String) (scanE : Option String)
    (eo es : String) :
    (readInputFile (.error eo) lines scanE = .error eo) ∧
    (readInputFile (.ok ()) lines (some es) = .error es) ∧
    (readInputFile (.ok ()) lines none = .ok (scanLines lines)) ∧
    (scanLines lines =
      (lines.map trimSpace).filter (fun l => !(l == "" || startsWithHash l))) ∧
    (readInputFile (.ok ())
        ["a.example.com", "", "# comment", "b.example.com"] none =
      .ok ["a.example.com", "b.example.com"]) :=
  ⟨rfl, rfl, rfl, scanLines_eq_filter lines, by decide⟩

/-- C6: whenever the hostname splits on `.` into at least two labels
(reversed list ending `b :: a :: _`), `getZoneNameFromRecord` returns the
last two labels joined with a dot; with fewer than two labels it returns
the `invalid hostname` error. -/
theorem getZoneNameFromRecord_spec (h a b : String) (rest : List String) :
    ((splitOnChar '.' h).reverse = b :: a :: rest →
      getZoneNameFromRecord h = .ok (a ++ "." ++ b)) ∧
    ((splitOnChar '.' h).length < 2 →
      getZoneNameFromRecord h = .error ("invalid hostname: " ++ h)) := by
  constructor
  · intro hrev
    have hp : splitOnChar '.' h = rest.reverse ++ [a, b] := by
      have h2 := congrArg List.reverse hrev
      simpa using h2
    have hlen : ¬ (splitOnChar '.' h).length < 2 := by
      rw [hp]; simp
    have hdrop : (splitOnChar '.' h).drop ((splitOnChar '.' h).length - 2)
        = [a, b] := by
      rw [hp]
      simp only [List.length_append, List.length_reverse, List.length_cons,
        List.length_nil]
      have h3 : rest.length + 2 - 2 = rest.reverse.length := by simp
      rw [h3, List.drop_left]
    simp only [getZoneNameFromRecord, if_neg hlen, hdrop]
    rfl
  · intro hlen
    simp only [getZoneNameFromRecord, if_pos hlen]

/-- C6 witness: `www.sub.example.co.uk` yields zone name `co.uk`;
`localhost` yields the invalid-hostname error. -/
theorem getZoneNameFromRecord_spec_witness :
    getZoneNameFromRecord "www.sub.example.co.uk" = .ok "co.uk" ∧
    getZoneNameFromRecord "localhost" =
      .error "invalid hostname: localhost" := by
  constructor
  · have h1 := (getZoneNameFromRecord_spec "www.sub.example.co.uk" "co" "uk"
      ["example", "sub", "www"]).1 (by decide)
    rw [h1]; decide
  · have h2 := (getZoneNameFromRecord_spec "localhost" "" "" []).2 (by decide)
    rw [h2]; decide

/-- C2 counterexample: with two fetched records whose delete calls would
both succeed, the first having a nil `Proxied` pointer, apply mode issues
only one remote delete call — the second record is skipped because the
first record's confirmation log panics — refuting "exactly one deletion
call per fetched record". -/
theorem apply_mode_skips_record_after_panic :
    (processRecords true
        [(⟨"rec1", "zone1", "a.example.com", "A", "203.0.113.5", none⟩,
            .ok ()),
         (⟨"rec2", "zone1", "a.example.com", "AAAA", "2001:db8::1",
            some false⟩, .ok ())]).deleteCalls = [("zone1", "rec1")] ∧
    (processRecords true
        [(⟨"rec1", "zone1", "a.example.com", "A", "203.0.113.5", none⟩,
            .ok ()),
         (⟨"rec2", "zone1", "a.example.com", "AAAA", "2001:db8::1",
            some false⟩, .ok ())]).deleteCalls ≠
      [("zone1", "rec1"), ("zone1", "rec2")] := by
  decide

/-- C2 (amended): in apply mode, provided no record panics — every record
whose delete call succeeds has a non-nil `Proxied` pointer — exactly one
remote delete call is issued per fetched record, in order, none skipped,
duplicated or retried. -/
theorem apply_mode_one_call_per_record
    (l : List (DNSRecord × Except String Unit))
    (hp : ∀ p ∈ l, p.2.isOk = true → p.1.Proxied.isSome = true) :
    (processRecords true l).deleteCalls = l.map (fun p => deleteCallOf p.1) := by
  induction l with
  | nil => rfl
  | cons p rest ih =>
    obtain ⟨r, o⟩ := p
    have hrest : ∀ q ∈ rest, q.2.isOk = true → q.1.Proxied.isSome = true :=
      fun q hq => hp q (List.mem_cons_of_mem _ hq)
    cases o with
    | error e =>
      simp [processRecords, deleteDNSRecord, ih hrest]
    | ok u =>
      have hps : r.Proxied.isSome = true :=
        hp (r, .ok u) (List.mem_cons_self _ _) rfl
      cases hpx : r.Proxied with
      | none => rw [hpx] at hps; simp at hps
      | some pv =>
        simp [processRecords, deleteDNSRecord, hpx, ih hrest]

/-- C2 witness: two records, the first deleted successfully, the second
failing remotely — both receive exactly one delete call. -/
theorem apply_mode_one_call_per_record_witness :
    (processRecords true
        [(⟨"rec1", "zone1", "a.example.com", "A", "203.0.113.5", some true⟩,
            .ok ()),
         (⟨"rec2", "zone1", "a.example.com", "AAAA", "2001:db8::1",
            some false⟩, .error "api error")]).deleteCalls =
      [("zone1", "rec1"), ("zone1", "rec2")] := by
  have h := apply_mode_one_call_per_record
    [(⟨"rec1", "zone1", "a.example.com", "A", "203.0.113.5", some true⟩,
        .ok ()),
     (⟨"rec2", "zone1", "a.example.com", "AAAA", "2001:db8::1",
        some false⟩, .error "api error")] (by decide)
  rw [h]; decide

/-- C3 counterexample: for a hostname whose zone-ID lookup fails, the
record fetch is still attempted (with the empty zone identifier) and the
fetched record is still deleted, refuting "no record fetch and no deletion
is attempted for that hostname". -/
theorem zone_id_failure_still_fetches_and_deletes :
    (processHostname true "b.example.com"
        ⟨.error "zone lookup failed",
         .ok [(⟨"rec2", "zone2", "b.example.com", "A", "203.0.113.6",
            some true⟩, .ok ())]⟩).fetchCalls = [("", "b.example.com")] ∧
    (processHostname true "b.example.com"
        ⟨.error "zone lookup failed",
         .ok [(⟨"rec2", "zone2", "b.example.com", "A", "203.0.113.6",
            some true⟩, .ok ())]⟩).deleteCalls = [("zone2", "rec2")] := by
  decide

/-- C3 (amended): when the zone-ID lookup for a hostname fails, the
failure is logged, but processing is not abandoned: the record fetch is
issued with the empty zone identifier, and deletions and panics proceed
exactly as they would with an (empty) successfully resolved identifier. -/
theorem zone_id_failure_logged_but_continues (apply : Bool) (h e : String)
    (fr : Except String (List (DNSRecord × Except String Unit))) :
    zoneIDFailLog (zoneNameOrEmpty h) e ∈
      (processHostname apply h ⟨.error e, fr⟩).logs ∧
    (processHostname apply h ⟨.error e, fr⟩).fetchCalls = [("", h)] ∧
    (processHostname apply h ⟨.error e, fr⟩).deleteCalls =
      (processHostname apply h ⟨.ok "", fr⟩).deleteCalls ∧
    (processHostname apply h ⟨.error e, fr⟩).panicked =
      (processHostname apply h ⟨.ok "", fr⟩).panicked := by
  cases hz : getZoneNameFromRecord h with
  | ok zn => cases fr <;> simp [processHostname, fetchDNSRecords, hz]
  | error ze => cases fr <;> simp [processHostname, fetchDNSRecords, hz]

/-- C7: when the record fetch for a hostname fails, the failure is logged,
no delete call is issued for that hostname, no panic occurs, and the outer
loop continues: the remaining hostnames contribute exactly their own
effects. -/
theorem fetch_error_skips_hostname (apply : Bool) (h e : String)
    (zres : Except String String) (rest : List (String × HostEnv)) :
    (processHostname apply h ⟨zres, .error e⟩).deleteCalls = [] ∧
    (processHostname apply h ⟨zres, .error e⟩).panicked = false ∧
    fetchFailLog h e ∈ (processHostname apply h ⟨zres, .error e⟩).logs ∧
    runHostnames apply ((h, ⟨zres, .error e⟩) :: rest) =
      { fetchCalls := (processHostname apply h ⟨zres, .error e⟩).fetchCalls ++
          (runHostnames apply rest).fetchCalls,
        deleteCalls := (runHostnames apply rest).deleteCalls,
        logs := (processHostname apply h ⟨zres, .error e⟩).logs ++
          (runHostnames apply rest).logs,
        panicked := (runHostnames apply rest).panicked } := by
  cases hz : getZoneNameFromRecord h with
  | ok zn => cases zres <;> simp [processHostname, fetchDNSRecords, runHostnames, hz]
  | error ze => cases zres <;> simp [processHostname, fetchDNSRecords, runHostnames, hz]

/-- C8: a fetch returning zero records is a success, not an error:
`fetchDNSRecords` returns `ok []` after an informational zero-result log,
the hostname's processing emits only info-level logs (given its zone name
parses), issues no delete call, does not panic, and the loop proceeds to
the remaining hostnames. -/
theorem zero_records_is_not_error (apply : Bool) (h zid zn : String)
    (rest : List (String × HostEnv))
    (hz : getZoneNameFromRecord h = .ok zn) :
    fetchDNSRecords zid h (.ok []) =
      ({ fetchCalls := [(zid, h)],
         logs := [fetchingLog h, noRecordsLog h] }, .ok []) ∧
    (noRecordsLog h).level = .info ∧
    (processHostname apply h ⟨.ok zid, .ok []⟩).deleteCalls = [] ∧
    (∀ l ∈ (processHostname apply h ⟨.ok zid, .ok []⟩).logs,
      l.level = .info) ∧
    (processHostname apply h ⟨.ok zid, .ok []⟩).panicked = false ∧
    (runHostnames apply ((h, ⟨.ok zid, .ok []⟩) :: rest)).deleteCalls =
      (runHostnames apply rest).deleteCalls := by
  refine ⟨rfl, rfl, ?_, ?_, ?_, ?_⟩ <;>
    simp [processHostname, fetchDNSRecords, processRecords, runHostnames, hz,
      fetchingLog, noRecordsLog]

/-- C8 witness: the concrete hostname `a.example.com` with a zero-record
fetch yields no delete call. -/
theorem zero_records_is_not_error_witness :
    getZoneNameFromRecord "a.example.com" = .ok "example.com" ∧
    (processHostname false "a.example.com"
      ⟨.ok "zone1", .ok []⟩).deleteCalls = [] :=
  ⟨by decide,
    (zero_records_is_not_error false "a.example.com" "zone1" "example.com" []
      (by decide)).2.2.1⟩

/-- Helper for C9: a batch of records whose remote delete calls all fail
receives exactly one delete call per record and never panics (the error
branch performs no `Proxied` dereference). -/
theorem processRecords_all_fail (e : String) : ∀ recs : List DNSRecord,
    (processRecords true
        (recs.map (fun q => (q, Except.error e)))).deleteCalls =
      recs.map deleteCallOf ∧
    (processRecords true
        (recs.map (fun q => (q, Except.error e)))).panicked = false
  | [] => ⟨rfl, rfl⟩
  | r :: rest => by
    have ih := processRecords_all_fail e rest
    simp [processRecords, deleteDNSRecord, ih.1, ih.2]

/-- C9: in apply mode a failed remote deletion is logged with the record's
identifier, name and underlying error, and aborts nothing: the rest of the
record list is processed exactly as before, a hostname all of whose
deletions fail still attempts every record and never panics, and the outer
loop still processes every subsequent hostname. -/
theorem delete_failure_does_not_abort (r : DNSRecord) (e : String)
    (rest : List (DNSRecord × Except String Unit)) (hostname zid : String)
    (recs : List DNSRecord) (moreHosts : List (String × HostEnv)) :
    processRecords true ((r, .error e) :: rest) =
      { fetchCalls := [],
        deleteCalls := deleteCallOf r :: (processRecords true rest).deleteCalls,
        logs := deleteFailLog r e :: loopDeleteErrLog e ::
          (processRecords true rest).logs,
        panicked := (processRecords true rest).panicked } ∧
    (processRecords true
        (recs.map (fun q => (q, Except.error e)))).deleteCalls =
      recs.map deleteCallOf ∧
    (runHostnames true ((hostname, ⟨.ok zid,
        .ok (recs.map (fun q => (q, Except.error e)))⟩) :: moreHosts)).deleteCalls =
      (processHostname true hostname ⟨.ok zid,
        .ok (recs.map (fun q => (q, Except.error e)))⟩).deleteCalls ++
      (runHostnames true moreHosts).deleteCalls := by
  refine ⟨by simp [processRecords, deleteDNSRecord], (processRecords_all_fail e recs).1, ?_⟩
  have hpf := (processRecords_all_fail e recs).2
  cases hz : getZoneNameFromRecord hostname with
  | ok zn => simp [runHostnames, processHostname, fetchDNSRecords, hz, hpf]
  | error ze => simp [runHostnames, processHostname, fetchDNSRecords, hz, hpf]

end CloudflareRemoveDNS
